import Mathlib

/-!
Verification development for the social-simulation engine
(src/social9.0/core: agent.py, society.py, simulation.py).

The Python source works with IEEE doubles; this embedding models all
numeric state with exact rationals (`ℚ`), so decimal literals such as
`0.05` denote the exact rational they print as.  Rounds are natural
numbers.  Randomness is modelled by passing the sequence of draws of the
ambient generator explicitly (`Nat → ℚ` streams or draw lists), in the
order the source consumes them.
-/

namespace SocialSim

/-- Ideology codes of agent.py: P (patriarchal), F (feminist), U (utilitarian). -/
inductive Ideology
  | P
  | F
  | U
deriving DecidableEq

/-- Gender of a member, immutable after construction. -/
inductive Gender
  | male
  | female
deriving DecidableEq

/-- Class tier of a member. -/
inductive ClassLevel
  | low
  | middle
  | high
deriving DecidableEq

/-- Numeric mapping of ideologies used throughout agent.py: P=1, F=-1, U=0. -/
def ideologyValue : Ideology → ℚ
  | .P => 1
  | .F => -1
  | .U => 0

/-- One sanction effect as built by `Agent.add_sanction_effect`.  The three
`current*` fields mirror the dict keys that `update_sanction_effects` adds
later; before that call the Python dict simply lacks them, which we model
with `none`. -/
structure SanctionEffect where
  intensity : ℚ
  startRound : Nat
  duration : Nat
  powerLoss : ℚ
  wealthLoss : ℚ
  currentIntensity : Option ℚ := none
  currentPowerLoss : Option ℚ := none
  currentWealthLoss : Option ℚ := none
deriving DecidableEq

/-- The mutable state of one `Agent` (agent.py).  The random `id` string is
irrelevant to every claim and omitted. -/
structure Agent where
  gender : Gender
  classLevel : ClassLevel
  wealth : ℚ
  power : ℚ
  careSkill : ℚ
  competitionSkill : ℚ
  ideology : Ideology
  ideologyValue : ℚ
  lastIdeologyChange : Nat
  sanctionEffects : List SanctionEffect
  wealthHistory : List ℚ
  powerHistory : List ℚ
  ideologyHistory : List Ideology
deriving DecidableEq

/-- Clamp of `np.clip(v, lo, hi)` for `lo ≤ hi`. -/
def clip (v lo hi : ℚ) : ℚ := max lo (min v hi)

/-- Care-skill clipping bounds of `Agent._initialize_skills`: the normal
sample is clipped to [0.1, 0.9] for males and [0.2, 1.0] for females. -/
def initCareSkill (g : Gender) (sample : ℚ) : ℚ :=
  match g with
  | .male => clip sample 0.1 0.9
  | .female => clip sample 0.2 1

/-- Competition-skill clipping bounds of `Agent._initialize_skills`:
[0.1, 0.9] for females and [0.2, 1.0] for males. -/
def initCompetitionSkill (g : Gender) (sample : ℚ) : ℚ :=
  match g with
  | .female => clip sample 0.1 0.9
  | .male => clip sample 0.2 1

/-- Wealth clipping of `Agent._initialize_wealth`: the class-specific normal
sample is clipped to [0.05,0.35] (low), [0.2,0.8] (middle), [0.6,1.0] (high). -/
def initWealth (c : ClassLevel) (sample : ℚ) : ℚ :=
  match c with
  | .low => clip sample 0.05 0.35
  | .middle => clip sample 0.2 0.8
  | .high => clip sample 0.6 1

/-- Power formula of `Agent._calculate_power`. -/
def calculatePower (wealth competitionSkill careSkill : ℚ) : ℚ :=
  0.5 * wealth + 0.25 * competitionSkill + 0.25 * careSkill

/-- Construction of an `Agent` (`Agent.__init__`) with the normal-distribution
samples passed in explicitly; the constructor clips them, derives power from
the formula, and seeds the history lists with the initial values. -/
def mkAgent (g : Gender) (c : ClassLevel)
    (careSample compSample wealthSample : ℚ) (ideo : Ideology) : Agent :=
  let care := initCareSkill g careSample
  let comp := initCompetitionSkill g compSample
  let w := initWealth c wealthSample
  let p := calculatePower w comp care
  { gender := g
    classLevel := c
    wealth := w
    power := p
    careSkill := care
    competitionSkill := comp
    ideology := ideo
    ideologyValue := SocialSim.ideologyValue ideo
    lastIdeologyChange := 0
    sanctionEffects := []
    wealthHistory := [w]
    powerHistory := [p]
    ideologyHistory := [ideo] }

/-- `Agent.update_wealth`: clamp the new value to at least 0.01, commit it and
append it to the wealth history. -/
def updateWealth (a : Agent) (newWealth : ℚ) : Agent :=
  let w := max 0.01 newWealth
  { a with wealth := w, wealthHistory := a.wealthHistory ++ [w] }

/-- `Agent.update_power`: recompute power from current wealth and skills and
append it to the power history. -/
def updatePower (a : Agent) : Agent :=
  let p := calculatePower a.wealth a.competitionSkill a.careSkill
  { a with power := p, powerHistory := a.powerHistory ++ [p] }

/-- `Agent.change_ideology`: if at least 3 rounds passed since the last change
the ideology, its numeric value and the last-change round are updated, the
history is appended and `true` is returned; otherwise the agent is untouched
and `false` is returned.  (Python compares `current_round -
last_ideology_change >= 3` over ints; over naturals with truncated
subtraction the test `3 ≤ current - last` decides the same cases.) -/
def changeIdeology (a : Agent) (newIdeology : Ideology) (currentRound : Nat) :
    Bool × Agent :=
  if 3 ≤ currentRound - a.lastIdeologyChange then
    (true,
      { a with
        ideology := newIdeology
        ideologyValue := SocialSim.ideologyValue newIdeology
        lastIdeologyChange := currentRound
        ideologyHistory := a.ideologyHistory ++ [newIdeology] })
  else
    (false, a)

/-- `Agent.add_sanction_effect`: append an effect with duration 3, base power
loss intensity×0.08 and base wealth loss intensity×0.03.  The `current*` dict
keys do not exist yet. -/
def addSanctionEffect (a : Agent) (intensity : ℚ) (currentRound : Nat) : Agent :=
  { a with
    sanctionEffects := a.sanctionEffects ++
      [{ intensity := intensity
         startRound := currentRound
         duration := 3
         powerLoss := intensity * 0.08
         wealthLoss := intensity * 0.03 }] }

/-- `Agent.update_sanction_effects`: keep each effect whose age
`current_round - start_round` is below its duration, refreshing its
`current*` fields with the 0.5^age decay of the base fields; drop the rest.
Ages are computed in ℤ as in Python (an effect dated in the future would be
amplified, exactly as `0.5 ** negative` is). -/
def updateSanctionEffects (a : Agent) (currentRound : Nat) : Agent :=
  { a with
    sanctionEffects := a.sanctionEffects.filterMap fun e =>
      let roundsPassed : ℤ := (currentRound : ℤ) - (e.startRound : ℤ)
      if roundsPassed < (e.duration : ℤ) then
        let decayFactor : ℚ := (0.5 : ℚ) ^ roundsPassed
        some
          { e with
            currentIntensity := some (e.intensity * decayFactor)
            currentPowerLoss := some (e.powerLoss * decayFactor)
            currentWealthLoss := some (e.wealthLoss * decayFactor) }
      else
        none }

/-- Result of `Agent.get_total_sanction_effects`. -/
structure SanctionTotals where
  powerLoss : ℚ
  wealthLoss : ℚ
deriving DecidableEq

/-- `Agent.get_total_sanction_effects`: sum the `current*` loss fields over
the active effects, a missing field counting as 0 (`dict.get` default). -/
def getTotalSanctionEffects (a : Agent) : SanctionTotals :=
  { powerLoss := (a.sanctionEffects.map fun e => e.currentPowerLoss.getD 0).sum
    wealthLoss := (a.sanctionEffects.map fun e => e.currentWealthLoss.getD 0).sum }

/-- Arithmetic mean as `np.mean` computes it (sum divided by length; the
Python call is only ever reached on nonempty data). -/
def mean (ws : List ℚ) : ℚ := ws.sum / (ws.length : ℚ)

/-- The double sum Σ_i Σ_j |w_i − w_j| of
`SocietyState._calculate_gini_coefficient`. -/
def totalAbsDiff (ws : List ℚ) : ℚ :=
  (ws.map fun wi => (ws.map fun wj => |wi - wj|).sum).sum

/-- `SocietyState._calculate_gini_coefficient`: 0 for fewer than two data
points or zero mean, otherwise Σ|w_i − w_j| / (2·n²·mean) capped at 1. -/
def calculateGiniCoefficient (ws : List ℚ) : ℚ :=
  if ws.length < 2 then 0
  else if mean ws = 0 then 0
  else min 1 (totalAbsDiff ws / (2 * (ws.length : ℚ) * (ws.length : ℚ) * mean ws))

/-- `SocietyState._calculate_social_equality` as a function of the member
wealth list: 0 for an empty society, otherwise 1 − Gini clamped to [0,1]. -/
def calculateSocialEquality (ws : List ℚ) : ℚ :=
  if ws = [] then 0
  else max 0 (min 1 (1 - calculateGiniCoefficient ws))

/-- The descending-power ordering used by `update_core_decision_circle`
(`sorted(key=power, reverse=True)`). -/
def powerGE (a b : Agent) : Prop := b.power ≤ a.power

instance : DecidableRel powerGE := fun a b =>
  inferInstanceAs (Decidable (b.power ≤ a.power))

instance : IsTotal Agent powerGE := ⟨fun a b => le_total b.power a.power⟩

instance : IsTrans Agent powerGE := ⟨fun _ _ _ hab hbc => le_trans hbc hab⟩

/-- `SocietyState.update_core_decision_circle`: sort the members by power
descending (a stable sort, as `sorted` is) and take the first
`max(1, int(n * 0.05))` of them.  Python `int` truncates toward zero, and
`int(n * 0.05) = n / 20` (natural division) for every population size `n`
whose product `n * 0.05` a double represents with error below 0.05, which
covers all representable populations. -/
def updateCoreDecisionCircle (agents : List Agent) : List Agent :=
  (agents.insertionSort powerGE).take (max 1 (agents.length / 20))

/-- The per-member tax amount of `_execute_tax_redistribution`: members with
wealth above half the (pre-step) average pay
`wealth × rate × max(0, wealth/avg − 0.5)`, everyone else pays nothing. -/
def taxAmount (avgWealth rate w : ℚ) : ℚ :=
  if avgWealth * 0.5 < w then w * rate * max 0 (w / avgWealth - 0.5) else 0

/-- `SocialSimulation._execute_tax_redistribution` as a function of the
member wealth list, with the stored `society.average_wealth` statistic
passed in: skip if the rate is ≤ 0, otherwise subtract each taxed amount
and, when anything was collected, hand every member an equal share of the
total. -/
def executeTaxRedistribution (avgWealth rate : ℚ) (ws : List ℚ) : List ℚ :=
  if rate ≤ 0 then ws
  else
    let totalTax := (ws.map (taxAmount avgWealth rate)).sum
    let taxed := ws.map fun w => w - taxAmount avgWealth rate w
    if 0 < totalTax then
      taxed.map fun w => w + totalTax / (ws.length : ℚ)
    else taxed

/-- `SocialSimulation._apply_attribution_bias` for one member, with the
stored `society.average_power` statistic passed in: male power is scaled by
`(1 + 0.2·bias)·(1 + 0.1·advantage)`, female power by
`(1 − 0.3·bias)·(1 + 0.1·advantage)`, the result floored at 0. -/
def applyAttributionBias (attributionBias avgPower : ℚ) (a : Agent) : Agent :=
  let relativePowerAdvantage := (a.power - avgPower) / max 0.001 avgPower
  let biasFactor :=
    match a.gender with
    | .male => (1 + 0.2 * attributionBias) * (1 + 0.1 * relativePowerAdvantage)
    | .female => (1 - 0.3 * attributionBias) * (1 + 0.1 * relativePowerAdvantage)
  { a with power := max 0 (a.power * biasFactor) }

/-- The per-member body of `SocialSimulation._update_wealth_power`: grow
wealth by the base-plus-skill rate, subtract the sanction wealth loss, soften
any excursion above 0.9 by 2%, commit through `update_wealth`, recompute
power through `update_power`, subtract the sanction power loss (floored at
0), and finally decay the sanction effects for the current round. -/
def updateWealthPowerAgent (baseGrowthRate : ℚ) (currentRound : Nat)
    (a : Agent) : Agent :=
  let skillBonus := 0.02 * (a.competitionSkill + a.careSkill) / 2
  let growthRate := baseGrowthRate + skillBonus
  let grown := a.wealth * (1 + growthRate)
  let sanction := getTotalSanctionEffects a
  let afterLoss := grown - sanction.wealthLoss
  let bounded := if 0.9 < afterLoss then afterLoss * 0.98 else afterLoss
  let a1 := updateWealth a bounded
  let a2 := updatePower a1
  let a3 := { a2 with power := max 0 (a2.power - sanction.powerLoss) }
  updateSanctionEffects a3 currentRound

/-- `SocialSimulation._execute_social_event`: the event succeeds iff the
summed care skill reaches `n × 0.5 × (1 + equality)`; on success every member
with care skill above 0.6 gains `0.05·care_reward·care` power and
`0.03·care_reward·care` wealth, on failure nobody changes. -/
def executeSocialEvent (careReward equality : ℚ) (agents : List Agent) :
    List Agent :=
  let totalCareSkill := (agents.map Agent.careSkill).sum
  let successThreshold := (agents.length : ℚ) * 0.5 * (1 + equality)
  if successThreshold ≤ totalCareSkill then
    agents.map fun a =>
      if 0.6 < a.careSkill then
        { a with
          power := a.power + 0.05 * careReward * a.careSkill
          wealth := a.wealth + 0.03 * careReward * a.careSkill }
      else a
  else agents

/-- `SocialSimulation._execute_economic_event`: each member, with its own
uniform draw, wins iff the draw is below `competition_skill × 0.8`, gaining
`0.04·competition_reward·skill` power and `0.06·competition_reward·skill`
wealth. -/
def executeEconomicEvent (competitionReward : ℚ) (agents : List Agent)
    (draws : List ℚ) : List Agent :=
  (agents.zip draws).map fun p =>
    if p.2 < p.1.competitionSkill * 0.8 then
      { p.1 with
        power := p.1.power + 0.04 * competitionReward * p.1.competitionSkill
        wealth := p.1.wealth + 0.06 * competitionReward * p.1.competitionSkill }
    else p.1

/-- Steps 2 of `_run_single_round`: `_trigger_event` draws one uniform number
and picks the social event iff it is below `0.4 + 0.2 × equality`, then
`_execute_event` resolves it.  The ambient generator is modelled by the
stream of its successive draws: index 0 feeds the trigger, and an economic
event consumes one further draw per member in order. -/
def eventStep (careReward competitionReward equality : ℚ)
    (agents : List Agent) (stream : Nat → ℚ) : List Agent :=
  if stream 0 < 0.4 + 0.2 * equality then
    executeSocialEvent careReward equality agents
  else
    executeEconomicEvent competitionReward agents
      ((List.range agents.length).map fun i => stream (i + 1))

/-- The `social_equality` snapshot value recorded after the event step. -/
def equalityAfterEventStep (careReward competitionReward equality : ℚ)
    (agents : List Agent) (stream : Nat → ℚ) : ℚ :=
  calculateSocialEquality
    ((eventStep careReward competitionReward equality agents stream).map
      Agent.wealth)

/-- Rules (b) and (c) of `_execute_ideology_conversion`, reached when the
frustration rule did not fire a conversion: a U member picks a target from
gender and class (males of middle or high class target P, females target F,
everyone else is skipped) and converts with a 20% draw; a P or F member whose
personal benefit is below −0.1 flips to the opposite ideology with a 10%
draw.  `i` is the index of the next unconsumed draw of the ambient stream. -/
def ideologyRulesBC (currentRound : Nat) (draws : Nat → ℚ) (i : Nat)
    (personalBenefit : ℚ) (a : Agent) : Agent :=
  if a.ideology = .U then
    if a.gender = .male ∧ (a.classLevel = .middle ∨ a.classLevel = .high) then
      if draws i < 0.2 then (changeIdeology a .P currentRound).2 else a
    else if a.gender = .female then
      if draws i < 0.2 then (changeIdeology a .F currentRound).2 else a
    else a
  else
    if a.ideology = .P ∨ a.ideology = .F then
      if personalBenefit < -0.1 ∧ draws i < 0.1 then
        (changeIdeology a (if a.ideology = .P then .F else .P) currentRound).2
      else a
    else a

/-- The per-member body of `_execute_ideology_conversion`: members on
cooldown are skipped; otherwise the frustration rule runs first — a P or F
member with personal benefit `(wealth−0.5)+(power−0.5)` below −0.2 converts
to U on a 30% draw and is then done — and when it does not fire (guard false
or draw failed) control falls through to the remaining rules. -/
def convertAgentIdeology (currentRound : Nat) (draws : Nat → ℚ) (a : Agent) :
    Agent :=
  if currentRound - a.lastIdeologyChange < 3 then a
  else
    let personalBenefit := (a.wealth - 0.5) + (a.power - 0.5)
    if (a.ideology = Ideology.P ∨ a.ideology = Ideology.F) ∧
        personalBenefit < -0.2 then
      if draws 0 < 0.3 then (changeIdeology a .U currentRound).2
      else ideologyRulesBC currentRound draws 1 personalBenefit a
    else ideologyRulesBC currentRound draws 0 personalBenefit a

/-- All-pairs equality of a wealth list (the Gini-zero configuration). -/
def allEqual (ws : List ℚ) : Prop := ws.Pairwise Eq

/-- A demonstration member: male, middle class, both skill samples 0.8,
wealth sample 0.5, ideology P.  No sample is clipped, so wealth = 0.5,
skills = 0.8 and power = 0.65. -/
def demoAgent : Agent := mkAgent .male .middle 0.8 0.8 0.5 .P

/-- Second member of the two-member reproducibility demonstration: female,
middle class, care 0.8, competition 0.2, wealth 0.5, ideology F. -/
def reproAgent2 : Agent := mkAgent .female .middle 0.8 0.2 0.5 .F

/-- The two-member population of the reproducibility demonstration.  Both
members start with wealth 0.5, so the start-of-round equality index is 1. -/
def reproAgents : List Agent := [demoAgent, reproAgent2]

/-- One possible state of the ambient generator: every call yields 0. -/
def reproStreamA : Nat → ℚ := fun _ => 0

/-- Another possible state of the ambient generator: the first call yields
0.99, later calls yield 0. -/
def reproStreamB : Nat → ℚ := fun n => if n = 0 then 0.99 else 0

/-- A wealth profile inside the initialization bands: one high-class member
at the band maximum 1.0 and nineteen low-class members at the band minimum
0.05.  Its mean is 39/400 = 0.0975. -/
def taxDemoWealths : List ℚ := 1 :: List.replicate 19 0.05

/-- A member record carrying only the fields the elite-circle rebuild reads;
everything except power is fixed. -/
def mkSimpleAgent (p : ℚ) : Agent :=
  { gender := .male
    classLevel := .low
    wealth := 0.5
    power := p
    careSkill := 0.5
    competitionSkill := 0.5
    ideology := .U
    ideologyValue := 0
    lastIdeologyChange := 0
    sanctionEffects := []
    wealthHistory := []
    powerHistory := []
    ideologyHistory := [] }

/-- A population of 30 members with pairwise distinct powers i/30. -/
def elite30Agents : List Agent :=
  (List.range 30).map fun (i : ℕ) => mkSimpleAgent ((i : ℚ) / 30)

/-- A frustrated member: ideology P, wealth 0.1 and power 0.1, so its
personal benefit is −0.8 < −0.2; its last ideology change was round 0. -/
def frustratedAgent : Agent :=
  { gender := .male
    classLevel := .low
    wealth := 0.1
    power := 0.1
    careSkill := 0.5
    competitionSkill := 0.5
    ideology := .P
    ideologyValue := 1
    lastIdeologyChange := 0
    sanctionEffects := []
    wealthHistory := []
    powerHistory := []
    ideologyHistory := [] }

/-- Draws for the frustrated member at round 10: the 30% frustration draw
fails (0.5 ≥ 0.3) and the 10% dissonance draw succeeds (0.05 < 0.1). -/
def frustratedDraws : Nat → ℚ := fun n => if n = 0 then 0.5 else 0.05

/-- The demo member with a sanction of intensity 1.0 added at round 5. -/
def sanctionAdded : Agent := addSanctionEffect demoAgent 1 5

/-- State after `update_sanction_effects(5)`. -/
def sanctionRound5 : Agent := updateSanctionEffects sanctionAdded 5

/-- State after the further `update_sanction_effects(6)`. -/
def sanctionRound6 : Agent := updateSanctionEffects sanctionRound5 6

/-- State after the further `update_sanction_effects(7)`. -/
def sanctionRound7 : Agent := updateSanctionEffects sanctionRound6 7

/-- State after the further `update_sanction_effects(8)`. -/
def sanctionRound8 : Agent := updateSanctionEffects sanctionRound7 8

/-- Helper: an ideology change off cooldown commits the new ideology. -/
theorem changeIdeology_snd_ideology (a : Agent) (n : Ideology) (r : Nat)
    (h : 3 ≤ r - a.lastIdeologyChange) :
    ((changeIdeology a n r).2).ideology = n := by
  simp [changeIdeology, h]

/-- C4: a sanction of intensity 1.0 added at round 5 reports total power
loss 0.08 after `update_sanction_effects(5)`, 0.04 after round 6, 0.02 after
round 7, and at round 8 the effect is removed and contributes nothing. -/
theorem sanction_decay_scenario :
    (getTotalSanctionEffects sanctionRound5).powerLoss = 0.08 ∧
    (getTotalSanctionEffects sanctionRound6).powerLoss = 0.04 ∧
    (getTotalSanctionEffects sanctionRound7).powerLoss = 0.02 ∧
    (getTotalSanctionEffects sanctionRound8).powerLoss = 0 ∧
    sanctionRound8.sanctionEffects = [] := by
  norm_num [sanctionRound5, sanctionRound6, sanctionRound7, sanctionRound8,
    sanctionAdded, demoAgent, mkAgent, addSanctionEffect, updateSanctionEffects,
    getTotalSanctionEffects, initCareSkill, initCompetitionSkill, initWealth,
    calculatePower, clip, List.filterMap_cons]

/-- C5: `change_ideology` inside the 3-round cooldown reports failure and
leaves every field of the member unchanged; outside the cooldown it commits
the new ideology, its numeric value and the last-change round, appends to
the ideology history and reports success. -/
theorem changeIdeology_cooldown (a : Agent) (newIdeology : Ideology)
    (currentRound : Nat) :
    (currentRound - a.lastIdeologyChange < 3 →
      changeIdeology a newIdeology currentRound = (false, a)) ∧
    (3 ≤ currentRound - a.lastIdeologyChange →
      changeIdeology a newIdeology currentRound =
        (true,
          { a with
            ideology := newIdeology
            ideologyValue := ideologyValue newIdeology
            lastIdeologyChange := currentRound
            ideologyHistory := a.ideologyHistory ++ [newIdeology] })) := by
  constructor
  · intro h
    simp [changeIdeology, Nat.not_le.mpr h]
  · intro h
    simp [changeIdeology, h]

/-- Witness for C5 at a concrete member and round inside the cooldown. -/
theorem changeIdeology_cooldown_witness :
    changeIdeology demoAgent Ideology.U 1 = (false, demoAgent) :=
  (changeIdeology_cooldown demoAgent Ideology.U 1).1 (by norm_num [demoAgent, mkAgent])

/-- C10: a freshly appended sanction effect has no `current_*` fields yet,
so `get_total_sanction_effects` returns the same totals right after
`add_sanction_effect` as before it — the fresh effect contributes exactly 0
until the next `update_sanction_effects`. -/
theorem fresh_sanction_contributes_nothing (a : Agent) (intensity : ℚ)
    (currentRound : Nat) :
    getTotalSanctionEffects (addSanctionEffect a intensity currentRound) =
      getTotalSanctionEffects a := by
  simp [getTotalSanctionEffects, addSanctionEffect]

/-- Helper: the double sum of absolute wealth differences is nonnegative. -/
theorem totalAbsDiff_nonneg (ws : List ℚ) : 0 ≤ totalAbsDiff ws := by
  apply List.sum_nonneg
  intro x hx
  obtain ⟨wi, _, rfl⟩ := List.mem_map.mp hx
  apply List.sum_nonneg
  intro y hy
  obtain ⟨wj, _, rfl⟩ := List.mem_map.mp hy
  exact abs_nonneg _

/-- Helper: a sum of nonnegative rationals vanishes iff every term does. -/
theorem sum_eq_zero_iff_of_nonneg (l : List ℚ) (h : ∀ x ∈ l, 0 ≤ x) :
    l.sum = 0 ↔ ∀ x ∈ l, x = 0 := by
  induction l with
  | nil => simp
  | cons a t ih =>
    have ha : 0 ≤ a := h a (List.mem_cons_self a t)
    have ht : ∀ x ∈ t, 0 ≤ x := fun x hx => h x (List.mem_cons_of_mem a hx)
    have hts : 0 ≤ t.sum := List.sum_nonneg ht
    rw [List.sum_cons]
    constructor
    · intro hs
      have hz := (add_eq_zero_iff_of_nonneg ha hts).mp hs
      intro x hx
      rcases List.mem_cons.mp hx with rfl | hx
      · exact hz.1
      · exact (ih ht).mp hz.2 x hx
    · intro hz
      rw [hz a (List.mem_cons_self a t),
        (ih ht).mpr fun x hx => hz x (List.mem_cons_of_mem a hx), add_zero]

/-- Helper: the double sum vanishes iff all wealths coincide. -/
theorem totalAbsDiff_eq_zero_iff (ws : List ℚ) :
    totalAbsDiff ws = 0 ↔ ∀ a ∈ ws, ∀ b ∈ ws, a = b := by
  unfold totalAbsDiff
  have houter : ∀ x ∈ ws.map fun wi => (ws.map fun wj => |wi - wj|).sum,
      0 ≤ x := by
    intro x hx
    obtain ⟨wi, _, rfl⟩ := List.mem_map.mp hx
    apply List.sum_nonneg
    intro y hy
    obtain ⟨wj, _, rfl⟩ := List.mem_map.mp hy
    exact abs_nonneg _
  rw [sum_eq_zero_iff_of_nonneg _ houter]
  constructor
  · intro h a ha b hb
    have h1 := h _ (List.mem_map_of_mem _ ha)
    have hinner : ∀ y ∈ ws.map fun wj => |a - wj|, 0 ≤ y := by
      intro y hy
      obtain ⟨wj, _, rfl⟩ := List.mem_map.mp hy
      exact abs_nonneg _
    have h2 := (sum_eq_zero_iff_of_nonneg _ hinner).mp h1 _
      (List.mem_map_of_mem _ hb)
    exact sub_eq_zero.mp (abs_eq_zero.mp h2)
  · intro h x hx
    obtain ⟨wi, hwi, rfl⟩ := List.mem_map.mp hx
    apply List.sum_eq_zero
    intro y hy
    obtain ⟨wj, hwj, rfl⟩ := List.mem_map.mp hy
    rw [h wi hwi wj hwj, sub_self, abs_zero]

/-- Helper: Gini over nonnegative wealths is nonnegative. -/
theorem gini_nonneg (ws : List ℚ) (hnn : ∀ w ∈ ws, 0 ≤ w) :
    0 ≤ calculateGiniCoefficient ws := by
  unfold calculateGiniCoefficient
  split_ifs with h1 h2
  · exact le_refl 0
  · exact le_refl 0
  · refine le_min (by norm_num) ?_
    have hm : 0 ≤ mean ws :=
      div_nonneg (List.sum_nonneg hnn) (Nat.cast_nonneg _)
    have hm2 : 0 < mean ws := lt_of_le_of_ne hm (Ne.symm h2)
    have hlen : (0 : ℚ) < (ws.length : ℚ) := by
      have : 2 ≤ ws.length := Nat.not_lt.mp h1
      exact_mod_cast lt_of_lt_of_le (by norm_num) this
    exact div_nonneg (totalAbsDiff_nonneg ws)
      (mul_pos (mul_pos (mul_pos two_pos hlen) hlen) hm2).le

/-- C7 counterexample: for the empty wealth list the computed equality index
is the degenerate 0 while all of its wealths are (vacuously) identical, so
the claimed equivalence equality = 1 iff Gini-zero-configuration fails. -/
theorem equality_iff_empty_counterexample :
    ¬ (calculateSocialEquality [] = 1 ↔ allEqual []) := by
  simp [calculateSocialEquality, allEqual]

/-- C7 (amended): over a nonempty list of nonnegative member wealths the
equality index lies in [0,1] and equals exactly 1 iff all wealths are
identical; the Gini computation itself returns the neutral 0 for fewer than
two wealths or zero mean. -/
theorem equality_index_characterization (ws : List ℚ) (hne : ws ≠ [])
    (hnn : ∀ w ∈ ws, 0 ≤ w) :
    (0 ≤ calculateSocialEquality ws ∧ calculateSocialEquality ws ≤ 1) ∧
    (calculateSocialEquality ws = 1 ↔ ∀ a ∈ ws, ∀ b ∈ ws, a = b) ∧
    calculateGiniCoefficient [] = 0 ∧
    (∀ w : ℚ, calculateGiniCoefficient [w] = 0) ∧
    (∀ vs : List ℚ, mean vs = 0 → calculateGiniCoefficient vs = 0) := by
  have hgnn : 0 ≤ calculateGiniCoefficient ws := gini_nonneg ws hnn
  have hgz_iff : calculateGiniCoefficient ws = 0 ↔
      ∀ a ∈ ws, ∀ b ∈ ws, a = b := by
    unfold calculateGiniCoefficient
    split_ifs with h1 h2
    · constructor
      · intro _
        match ws, hne, h1 with
        | [x], _, _ =>
          intro a ha b hb
          rw [List.mem_singleton.mp ha, List.mem_singleton.mp hb]
      · intro _
        rfl
    · constructor
      · intro _ a ha b hb
        rw [mean] at h2
        have hlen : (ws.length : ℚ) ≠ 0 := by
          have : 0 < ws.length := List.length_pos.mpr hne
          exact_mod_cast this.ne'
        have hsum : ws.sum = 0 := by
          rcases div_eq_zero_iff.mp h2 with hs | hl
          · exact hs
          · exact absurd hl hlen
        have hz := (sum_eq_zero_iff_of_nonneg ws hnn).mp hsum
        rw [hz a ha, hz b hb]
      · intro _
        rfl
    · have hm : 0 ≤ mean ws :=
        div_nonneg (List.sum_nonneg hnn) (Nat.cast_nonneg _)
      have hm2 : 0 < mean ws := lt_of_le_of_ne hm (Ne.symm h2)
      have hlen : (0 : ℚ) < (ws.length : ℚ) := by
        have : 2 ≤ ws.length := Nat.not_lt.mp h1
        exact_mod_cast lt_of_lt_of_le (by norm_num) this
      have hden : (0 : ℚ) <
          2 * (ws.length : ℚ) * (ws.length : ℚ) * mean ws :=
        mul_pos (mul_pos (mul_pos two_pos hlen) hlen) hm2
      constructor
      · intro h
        have hx : totalAbsDiff ws /
            (2 * (ws.length : ℚ) * (ws.length : ℚ) * mean ws) = 0 := by
          rcases min_choice 1 (totalAbsDiff ws /
              (2 * (ws.length : ℚ) * (ws.length : ℚ) * mean ws)) with hc | hc
          · rw [h] at hc
            norm_num at hc
          · rw [← h, hc]
        have hD : totalAbsDiff ws = 0 := by
          rcases div_eq_zero_iff.mp hx with hD | hden0
          · exact hD
          · exact absurd hden0 hden.ne'
        exact (totalAbsDiff_eq_zero_iff ws).mp hD
      · intro hall
        rw [(totalAbsDiff_eq_zero_iff ws).mpr hall, zero_div]
        exact min_eq_right (by norm_num)
  refine ⟨?_, ?_, by norm_num [calculateGiniCoefficient],
    fun w => by norm_num [calculateGiniCoefficient], ?_⟩
  · rw [calculateSocialEquality, if_neg hne]
    exact ⟨le_max_left _ _, max_le (by norm_num) (min_le_left _ _)⟩
  · rw [calculateSocialEquality, if_neg hne]
    constructor
    · intro h1
      have h1' : min 1 (1 - calculateGiniCoefficient ws) = 1 := by
        rcases max_choice 0 (min 1 (1 - calculateGiniCoefficient ws))
          with hc | hc
        · rw [h1] at hc
          norm_num at hc
        · rw [h1] at hc
          exact hc.symm
      have hgle : (1 : ℚ) ≤ 1 - calculateGiniCoefficient ws := by
        have hmr := min_le_right 1 (1 - calculateGiniCoefficient ws)
        rwa [h1'] at hmr
      have hg0 : calculateGiniCoefficient ws ≤ 0 := by linarith
      exact hgz_iff.mp (le_antisymm hg0 hgnn)
    · intro hall
      rw [hgz_iff.mpr hall]
      norm_num
  · intro vs hm
    unfold calculateGiniCoefficient
    split_ifs with h1
    · rfl
    · rfl

/-- Witness for C7 at the constant two-member wealth profile. -/
theorem equality_index_characterization_witness :
    0 ≤ calculateSocialEquality [0.5, 0.5] ∧
      calculateSocialEquality [0.5, 0.5] ≤ 1 :=
  (equality_index_characterization [0.5, 0.5] (by simp)
    (by norm_num [List.forall_mem_cons])).1

/-- C1 counterexample: over 30 members the claimed circle size is
max(1, ⌈30×0.05⌉) = 2, but the rebuild truncates (`int(...)`) and keeps a
single member. -/
theorem elite_circle_ceil_counterexample :
    elite30Agents.length = 30 ∧
    max 1 (Int.toNat ⌈(elite30Agents.length : ℚ) * 0.05⌉) = 2 ∧
    (updateCoreDecisionCircle elite30Agents).length = 1 := by
  have hlen : elite30Agents.length = 30 := by
    rw [elite30Agents, List.length_map, List.length_range]
  have hceil : (⌈(3 / 2 : ℚ)⌉ : ℤ) = 2 := by
    rw [Int.ceil_eq_iff]
    norm_num
  refine ⟨hlen, ?_, ?_⟩
  · rw [hlen]
    norm_num
    rw [hceil]
    decide
  · rw [updateCoreDecisionCircle, List.length_take, List.length_insertionSort,
      hlen]
    decide

/-- C1 (amended): after a rebuild over a nonempty population of n members
the circle has exactly max(1, ⌊n×0.05⌋) members (truncating division, not
the ceiling), it is sorted by power descending, and it is a top segment: the
remaining members all have power at most that of every circle member. -/
theorem elite_circle_rebuild (agents : List Agent) (hne : agents ≠ []) :
    (updateCoreDecisionCircle agents).length = max 1 (agents.length / 20) ∧
    List.Sorted powerGE (updateCoreDecisionCircle agents) ∧
    ∃ rest, agents.Perm (updateCoreDecisionCircle agents ++ rest) ∧
      ∀ x ∈ updateCoreDecisionCircle agents, ∀ y ∈ rest, y.power ≤ x.power := by
  have hpos : 0 < agents.length := List.length_pos.mpr hne
  have hk : max 1 (agents.length / 20) ≤ agents.length :=
    max_le hpos (Nat.div_le_self _ _)
  have hsorted := List.sorted_insertionSort powerGE agents
  have hperm := List.perm_insertionSort powerGE agents
  refine ⟨?_, ?_, ?_⟩
  · rw [updateCoreDecisionCircle, List.length_take, List.length_insertionSort]
    exact min_eq_left hk
  · exact hsorted.sublist (List.take_sublist _ _)
  · refine ⟨(agents.insertionSort powerGE).drop (max 1 (agents.length / 20)),
      ?_, ?_⟩
    · rw [updateCoreDecisionCircle, List.take_append_drop]
      exact hperm.symm
    · intro x hx y hy
      have hp : List.Pairwise powerGE
          ((agents.insertionSort powerGE).take (max 1 (agents.length / 20)) ++
            (agents.insertionSort powerGE).drop (max 1 (agents.length / 20))) := by
        rw [List.take_append_drop]
        exact hsorted
      exact (List.pairwise_append.mp hp).2.2 x hx y hy

/-- Witness for C1 at the singleton population. -/
theorem elite_circle_rebuild_witness :
    (updateCoreDecisionCircle [demoAgent]).length =
      max 1 ([demoAgent].length / 20) :=
  (elite_circle_rebuild [demoAgent] (by simp)).1

/-- C2 (amended): wealth is at least 0.01 at initialization (the class bands
bottom out at 0.05) and after every `update_wealth` commit, hence after the
wealth/power update step of each round; the tax-redistribution step is the
exception the counterexample exhibits. -/
theorem wealth_floor_at_update_points (a : Agent) (v : ℚ) (c : ClassLevel)
    (sample baseGrowthRate : ℚ) (currentRound : Nat) :
    0.01 ≤ (updateWealth a v).wealth ∧
    0.01 ≤ initWealth c sample ∧
    0.01 ≤ (updateWealthPowerAgent baseGrowthRate currentRound a).wealth := by
  refine ⟨le_max_left _ _, ?_, ?_⟩
  · cases c <;> simp only [initWealth, clip] <;>
      exact le_trans (by norm_num) (le_max_left _ _)
  · simp only [updateWealthPowerAgent, updateSanctionEffects, updatePower,
      updateWealth]
    exact le_max_left _ _

/-- C2 counterexample: in a 20-member population with wealths 1.0 and
nineteen 0.05 (all inside the initialization bands, so all ≥ 0.01) and the
default tax rate 0.3, the tax-redistribution step leaves the rich member
with wealth −185161/104000 ≈ −1.78 < 0.01. -/
theorem tax_step_breaks_wealth_floor :
    taxDemoWealths.getD 0 0 = 1 ∧
    (executeTaxRedistribution (mean taxDemoWealths) 0.3 taxDemoWealths).getD
        0 0 < 0.01 := by
  constructor
  · rfl
  · norm_num [executeTaxRedistribution, taxAmount, mean, taxDemoWealths,
      List.replicate]

/-- C9 counterexample: the attribution-bias step (default lever 0.6, a
member whose power 0.65 equals the population average) multiplies power by
1.12, leaving power 0.728 while the formula over the unchanged wealth and
skills still gives 0.65. -/
theorem attribution_bias_power_counterexample :
    (applyAttributionBias 0.6 0.65 demoAgent).power ≠
      0.5 * (applyAttributionBias 0.6 0.65 demoAgent).wealth +
      0.25 * (applyAttributionBias 0.6 0.65 demoAgent).competitionSkill +
      0.25 * (applyAttributionBias 0.6 0.65 demoAgent).careSkill := by
  norm_num [applyAttributionBias, demoAgent, mkAgent, initCareSkill,
    initCompetitionSkill, initWealth, calculatePower, clip]

/-- C9 (amended): power equals 0.5·wealth + 0.25·competition_skill +
0.25·care_skill immediately after initialization and after every
`update_power` call, and the wealth/power update step leaves power at
max(0, formula − sanction power loss); the event, attribution-bias and
sanction adjustments in between set power away from the bare formula, as
the counterexample shows. -/
theorem power_formula_at_recompute_points (a : Agent) (g : Gender)
    (c : ClassLevel) (careSample compSample wealthSample : ℚ) (ideo : Ideology)
    (baseGrowthRate : ℚ) (currentRound : Nat) :
    (updatePower a).power =
      0.5 * a.wealth + 0.25 * a.competitionSkill + 0.25 * a.careSkill ∧
    (mkAgent g c careSample compSample wealthSample ideo).power =
      0.5 * (mkAgent g c careSample compSample wealthSample ideo).wealth +
      0.25 * (mkAgent g c careSample compSample wealthSample ideo).competitionSkill +
      0.25 * (mkAgent g c careSample compSample wealthSample ideo).careSkill ∧
    (updateWealthPowerAgent baseGrowthRate currentRound a).power =
      max 0 (0.5 * (updateWealthPowerAgent baseGrowthRate currentRound a).wealth +
        0.25 * a.competitionSkill + 0.25 * a.careSkill -
        (getTotalSanctionEffects a).powerLoss) := by
  refine ⟨rfl, rfl, ?_⟩
  simp only [updateWealthPowerAgent, updateSanctionEffects, updatePower,
    updateWealth, calculatePower]

/-- C3: with the configuration fixed (population of two, default
care_reward 1.0 and competition_reward 1.5, identical start wealths), two
runs of the event step that consume different states of the ambient
generator — which `random_seed` never initializes — record different
equality-index values: 1 after a failed social event versus 1063/1090 after
an economic event. -/
theorem ambient_randomness_divergence :
    equalityAfterEventStep 1 1.5
        (calculateSocialEquality (reproAgents.map Agent.wealth))
        reproAgents reproStreamA ≠
      equalityAfterEventStep 1 1.5
        (calculateSocialEquality (reproAgents.map Agent.wealth))
        reproAgents reproStreamB := by
  have hd : demoAgent =
      ⟨.male, .middle, 0.5, 0.65, 0.8, 0.8, .P, 1, 0, [], [0.5], [0.65], [.P]⟩ := by
    norm_num [demoAgent, mkAgent, initWealth, initCareSkill,
      initCompetitionSkill, clip, calculatePower, ideologyValue]
  have hr2 : reproAgent2 =
      ⟨.female, .middle, 0.5, 0.5, 0.8, 0.2, .F, -1, 0, [], [0.5], [0.5], [.F]⟩ := by
    norm_num [reproAgent2, mkAgent, initWealth, initCareSkill,
      initCompetitionSkill, clip, calculatePower, ideologyValue]
  have heq0 : calculateSocialEquality (reproAgents.map Agent.wealth) = 1 := by
    rw [reproAgents, hd, hr2]
    norm_num [calculateSocialEquality, calculateGiniCoefficient, mean,
      totalAbsDiff, List.cons_ne_nil]
  rw [heq0]
  have hA : equalityAfterEventStep 1 1.5 1 reproAgents reproStreamA = 1 := by
    rw [equalityAfterEventStep, eventStep, reproAgents, hd, hr2]
    norm_num [executeSocialEvent, reproStreamA, calculateSocialEquality,
      calculateGiniCoefficient, mean, totalAbsDiff, List.cons_ne_nil]
  have hB : equalityAfterEventStep 1 1.5 1 reproAgents reproStreamB =
      1063 / 1090 := by
    rw [equalityAfterEventStep, eventStep, reproAgents, hd, hr2]
    norm_num [executeSocialEvent, executeEconomicEvent, reproStreamB,
      calculateSocialEquality, calculateGiniCoefficient, mean, totalAbsDiff,
      List.range_succ, List.cons_ne_nil, abs_of_nonneg, min_def, max_def]
  rw [hA, hB]
  norm_num

/-- C6 counterexample: a P member off cooldown with personal benefit
−0.8 < −0.2 whose 30% frustration draw fails (0.5) and whose 10% dissonance
draw succeeds (0.05) leaves the conversion step with ideology F — neither
unchanged nor U. -/
theorem frustration_rule_counterexample :
    (convertAgentIdeology 10 frustratedDraws frustratedAgent).ideology ≠
        frustratedAgent.ideology ∧
    (convertAgentIdeology 10 frustratedDraws frustratedAgent).ideology ≠
        Ideology.U := by
  norm_num [convertAgentIdeology, ideologyRulesBC, changeIdeology,
    frustratedAgent, frustratedDraws]
  decide

/-- C6 (amended): for a member off cooldown with ideology P or F and
personal benefit below −0.2, the frustration rule fires first, but a failed
30% draw falls through to the cognitive-dissonance rule: the ideology after
the step is U if the first draw is below 0.3, the opposite of P/F if it is
not and the next draw is below 0.1, and unchanged otherwise. -/
theorem frustration_rule_fallthrough (a : Agent) (currentRound : Nat)
    (draws : Nat → ℚ)
    (hcool : ¬ currentRound - a.lastIdeologyChange < 3)
    (hpf : a.ideology = Ideology.P ∨ a.ideology = Ideology.F)
    (hben : (a.wealth - 0.5) + (a.power - 0.5) < -0.2) :
    (convertAgentIdeology currentRound draws a).ideology =
      if draws 0 < 0.3 then Ideology.U
      else if draws 1 < 0.1 then
        (if a.ideology = Ideology.P then Ideology.F else Ideology.P)
      else a.ideology := by
  have hc3 : 3 ≤ currentRound - a.lastIdeologyChange := Nat.not_lt.mp hcool
  have hnotU : ¬ a.ideology = Ideology.U := by
    rcases hpf with h | h <;> simp [h]
  have hben1 : (a.wealth - 0.5) + (a.power - 0.5) < -0.1 := by linarith
  simp only [convertAgentIdeology, if_neg hcool]
  rw [if_pos ⟨hpf, hben⟩]
  by_cases h0 : draws 0 < 0.3
  · rw [if_pos h0, if_pos h0, changeIdeology_snd_ideology a Ideology.U
      currentRound hc3]
  · rw [if_neg h0, if_neg h0]
    simp only [ideologyRulesBC, if_neg hnotU]
    rw [if_pos hpf]
    by_cases h1 : draws 1 < 0.1
    · rw [if_pos ⟨hben1, h1⟩, if_pos h1, changeIdeology_snd_ideology a _
        currentRound hc3]
    · rw [if_neg (fun hc => h1 hc.2), if_neg h1]

/-- Helper: summing pointwise differences splits over the list. -/
theorem sum_map_sub (l : List ℚ) (f : ℚ → ℚ) :
    (l.map fun w => w - f w).sum = l.sum - (l.map f).sum := by
  induction l with
  | nil => simp
  | cons a t ih =>
    simp only [List.map_cons, List.sum_cons, ih]
    ring

/-- Helper: adding a constant to every entry adds length-many copies. -/
theorem sum_map_add_const (l : List ℚ) (c : ℚ) :
    (l.map fun w => w + c).sum = l.sum + (l.length : ℚ) * c := by
  induction l with
  | nil => simp
  | cons a t ih =>
    simp only [List.map_cons, List.sum_cons, ih, List.length_cons]
    push_cast
    ring

/-- Helper: with a nonzero stored average and a positive rate no member is
charged a negative tax. -/
theorem taxAmount_nonneg (avgWealth rate w : ℚ) (havg : avgWealth ≠ 0)
    (hrate : 0 < rate) : 0 ≤ taxAmount avgWealth rate w := by
  unfold taxAmount
  split_ifs with hw
  · rcases le_or_lt (w / avgWealth - 0.5) 0 with hm | hm
    · rw [max_eq_left hm, mul_zero]
    · have hw0 : 0 < w := by
        rcases lt_trichotomy avgWealth 0 with hneg | hz | hpos
        · exfalso
          have hdiv : (0.5 : ℚ) < w / avgWealth := by linarith
          have := (lt_div_iff_of_neg hneg).mp hdiv
          linarith
        · exact absurd hz havg
        · linarith
      exact mul_nonneg (mul_nonneg hw0.le hrate.le) (le_max_left 0 _)
  · exact le_refl 0

/-- C8: with a nonzero stored average wealth, a tax rate ≤ 0 makes the
tax-redistribution step the identity on every wealth; and for any rate the
step conserves the population total exactly, every collected unit being
redistributed in equal shares. -/
theorem tax_redistribution_conserves (avgWealth rate : ℚ) (ws : List ℚ)
    (havg : avgWealth ≠ 0) :
    (rate ≤ 0 → executeTaxRedistribution avgWealth rate ws = ws) ∧
    (executeTaxRedistribution avgWealth rate ws).sum = ws.sum := by
  constructor
  · intro h
    simp [executeTaxRedistribution, h]
  · simp only [executeTaxRedistribution]
    split_ifs with hr ht
    · rfl
    · push_neg at hr
      rw [sum_map_add_const, sum_map_sub, List.length_map]
      have hnil : ws ≠ [] := by
        intro h0
        rw [h0] at ht
        simp at ht
      have hn : (ws.length : ℚ) ≠ 0 := by
        have : 0 < ws.length := List.length_pos.mpr hnil
        exact_mod_cast this.ne'
      rw [mul_comm, div_mul_cancel₀ _ hn]
      ring
    · push_neg at hr
      have hT0 : 0 ≤ (ws.map (taxAmount avgWealth rate)).sum := by
        apply List.sum_nonneg
        intro x hx
        obtain ⟨w, _, rfl⟩ := List.mem_map.mp hx
        exact taxAmount_nonneg avgWealth rate w havg hr
      have hT : (ws.map (taxAmount avgWealth rate)).sum = 0 :=
        le_antisymm (not_lt.mp ht) hT0
      rw [sum_map_sub, hT, sub_zero]

/-- Witness for C8 at a singleton population with rate 0. -/
theorem tax_redistribution_conserves_witness :
    executeTaxRedistribution 1 0 [1] = [1] ∧
      (executeTaxRedistribution 1 0 [1]).sum = [1].sum :=
  ⟨(tax_redistribution_conserves 1 0 [1] one_ne_zero).1 le_rfl,
   (tax_redistribution_conserves 1 0 [1] one_ne_zero).2⟩

/-- Witness for C6 at the concrete frustrated member and draw stream. -/
theorem frustration_rule_fallthrough_witness :
    (convertAgentIdeology 10 frustratedDraws frustratedAgent).ideology =
      if frustratedDraws 0 < 0.3 then Ideology.U
      else if frustratedDraws 1 < 0.1 then
        (if frustratedAgent.ideology = Ideology.P then Ideology.F
         else Ideology.P)
      else frustratedAgent.ideology :=
  frustration_rule_fallthrough frustratedAgent 10 frustratedDraws
    (by norm_num [frustratedAgent]) (Or.inl rfl)
    (by norm_num [frustratedAgent])

end SocialSim
